import Mathlib

/-!
# Verification of the Reliability-Studio incident-correlation core

Shallow embedding of the Go backend under
`observability-lab/relaiablity-studio/backend` (packages `analysis` and
`correlation`).  JSON payloads are modelled by an inductive `Json` value; a
payload that is not valid JSON (for instance the error-message string a source
client returns on a transport failure) is modelled as `none : Option Json`,
matching `json.Unmarshal` leaving the destination map `nil`.  A Go runtime
panic from a failed type assertion (`x.(T)`) or an out-of-range slice index is
modelled as the `Option` monad returning `none`: the function aborts and
produces no result.
-/

/-- JSON values as decoded by `encoding/json` into `map[string]any`. -/
inductive Json where
  | null : Json
  | bool (b : Bool) : Json
  | num (q : ℚ) : Json
  | str (s : String) : Json
  | arr (elems : List Json) : Json
  | obj (fields : List (String × Json)) : Json

/-- Go `m[k]` followed by a type assertion usable only when the value exists:
indexing a `map[string]any` (or a `nil` map) yields the value or `nil`, and a
subsequent type assertion on `nil` or on a non-map receiver panics.  `field`
returns `none` exactly in the situations where the Go code would panic on the
next assertion: receiver not a JSON object, or key absent. -/
def Json.field : Json → String → Option Json
  | .obj fields, k => fields.lookup k
  | _, _ => none

/-- Go type assertion `x.([]any)`: `none` models the panic. -/
def Json.asArr : Json → Option (List Json)
  | .arr elems => some elems
  | _ => none

/-- Go type assertion `x.(string)`: `none` models the panic. -/
def Json.asStr : Json → Option String
  | .str s => some s
  | _ => none

/-- `var parsed map[string]any; _ = json.Unmarshal([]byte(raw), &parsed)`:
the error is discarded, so on invalid JSON `parsed` stays the `nil` map, whose
key lookups all yield `nil` — indistinguishable from an empty object for every
later access. -/
def rawParse : Option Json → Json
  | some j => j
  | none => Json.obj []

/-- Character-list version of Go `strings.HasPrefix`. -/
def startsWithChars : List Char → List Char → Bool
  | [], _ => true
  | _ :: _, [] => false
  | a :: as, b :: bs => a == b && startsWithChars as bs

/-- Character-list version of Go `strings.Contains`. -/
def hasSubstrChars (needle : List Char) : List Char → Bool
  | [] => startsWithChars needle []
  | c :: rest => startsWithChars needle (c :: rest) || hasSubstrChars needle rest

/-- `strings.Contains(strings.ToLower(msg), "error")` from `AnalyzeLogs`
(lower-casing applied character by character, as `String.toLower` does). -/
def containsError (msg : String) : Bool :=
  hasSubstrChars "error".data (msg.data.map Char.toLower)

/-! ## Package `analysis` -/

/-- `analysis.LogEvent`. -/
structure LogEvent where
  Time : String
  Message : String
deriving DecidableEq

/-- `analysis.LogResult`. -/
structure LogResult where
  RootCause : String
  ErrorCount : Nat
  Events : List LogEvent
deriving DecidableEq

/-- One iteration of the inner loop of `AnalyzeLogs`:
`ts := v.([]any)[0].(string); msg := v.([]any)[1].(string)`. -/
def readLogLine (v : Json) : Option (String × String) := do
  let l ← v.asArr
  let ts ← (l.get? 0).bind Json.asStr
  let msg ← (l.get? 1).bind Json.asStr
  pure (ts, msg)

/-- The inner `for _, v := range values` extraction; a panic anywhere aborts
the whole call. -/
def readLogLines : List Json → Option (List (String × String))
  | [] => some []
  | v :: rest => do
    let p ← readLogLine v
    let ps ← readLogLines rest
    pure (p :: ps)

/-- The outer `for _, s := range streams` extraction:
`values := s.(map[string]any)["values"].([]any)`. -/
def readStreams : List Json → Option (List (String × String))
  | [] => some []
  | s :: rest => do
    let vs ← (s.field "values").bind Json.asArr
    let ps ← readLogLines vs
    let qs ← readStreams rest
    pure (ps ++ qs)

/-- One iteration of `AnalyzeLogs`' accumulation over a `(ts, msg)` line:
append the event, then on an error marker bump `errorCount` and record the
first root cause. -/
def logStep (acc : LogResult) (p : String × String) : LogResult :=
  let acc := { acc with Events := acc.Events ++ [⟨p.1, p.2⟩] }
  if containsError p.2 then
    { acc with
      ErrorCount := acc.ErrorCount + 1
      RootCause := if acc.RootCause = "" then p.2 else acc.RootCause }
  else acc

/-- The accumulating body of `AnalyzeLogs`' loop over all lines. -/
def analyzeLogsCore (lines : List (String × String)) : LogResult :=
  lines.foldl logStep ⟨"", 0, []⟩

/-- `analysis.AnalyzeLogs(service string, raw string) LogResult`
(`analysis/logs.go`; the `service` parameter is unused by the body). -/
def AnalyzeLogs (service : String) (raw : Option Json) : Option LogResult := do
  let _ := service
  let parsed := rawParse raw
  let streams ← ((parsed.field "data").bind fun d => d.field "result").bind Json.asArr
  let lines ← readStreams streams
  pure (analyzeLogsCore lines)

/-- `analysis.MetricResult`. -/
structure MetricResult where
  ErrorRate : ℚ
  Latency : ℚ
deriving DecidableEq

/-- Decimal digits to a natural number. -/
def digitsToNat (l : List Char) : Nat :=
  l.foldl (fun a c => a * 10 + (c.toNat - 48)) 0

/-- Helper called by `AnalyzeMetrics` whose definition is absent from the
repository snapshot.  Modelled from the spec: the Metric Normalizer "takes the
first series' last numeric sample as the latency figure", i.e. `parseFloat`
converts the sample's decimal string into a number (`strconv.ParseFloat`
style).  No claim depends on its value. -/
def parseFloat (s : String) : ℚ :=
  let sign : ℚ := if s.startsWith "-" then -1 else 1
  let body := if s.startsWith "-" then s.drop 1 else s
  match body.splitOn "." with
  | [i] => sign * (digitsToNat i.data : ℚ)
  | [i, f] => sign * ((digitsToNat i.data : ℚ) + (digitsToNat f.data : ℚ) / (10 ^ f.length : ℚ))
  | _ => 0

/-- `analysis.AnalyzeMetrics(raw string) MetricResult` (`analysis/metrics.go`).
Note the hard-coded `ErrorRate: 0.0 // you can derive this with more queries
later`. -/
def AnalyzeMetrics (raw : Option Json) : Option MetricResult := do
  let parsed := rawParse raw
  let results ← ((parsed.field "data").bind fun d => d.field "result").bind Json.asArr
  match results with
  | [] => pure { ErrorRate := 0, Latency := 0 }
  | first :: _ => do
    let val ← (((first.field "value").bind Json.asArr).bind fun l => l.get? 1).bind Json.asStr
    pure { ErrorRate := 0, Latency := parseFloat val }

/-- `analysis.TraceEvent`. -/
structure TraceEvent where
  Time : String
  Message : String
deriving DecidableEq

/-- `analysis.TraceResult`. -/
structure TraceResult where
  Failures : Nat
  Events : List TraceEvent
deriving DecidableEq

/-- One iteration of `AnalyzeTraces`' loop head:
`trace := t.(map[string]any); status := trace["status"].(string);
time := trace["startTimeUnixNano"].(string)`. -/
def readTrace (t : Json) : Option (String × String) := do
  let status ← (t.field "status").bind Json.asStr
  let time ← (t.field "startTimeUnixNano").bind Json.asStr
  pure (status, time)

/-- Extraction of every trace's `(status, time)`; a panic aborts the call. -/
def readTraces : List Json → Option (List (String × String))
  | [] => some []
  | t :: rest => do
    let e ← readTrace t
    let es ← readTraces rest
    pure (e :: es)

/-- The accumulating body of `AnalyzeTraces`' loop: any status other than
`"ok"` counts as a failure and emits a `"Trace failure"` event. -/
def analyzeTracesCore (entries : List (String × String)) : TraceResult :=
  entries.foldl
    (fun acc e =>
      if e.1 ≠ "ok" then
        { Failures := acc.Failures + 1, Events := acc.Events ++ [⟨e.2, "Trace failure"⟩] }
      else acc)
    ⟨0, []⟩

/-- `analysis.AnalyzeTraces(raw string) TraceResult` (`analysis/metrics.go`). -/
def AnalyzeTraces (raw : Option Json) : Option TraceResult := do
  let parsed := rawParse raw
  let traces ← (parsed.field "traces").bind Json.asArr
  let entries ← readTraces traces
  pure (analyzeTracesCore entries)

/-- `analysis.K8sEvent`. -/
structure K8sEvent where
  Time : String
  Message : String
deriving DecidableEq

/-- `analysis.K8sResult`. -/
structure K8sResult where
  BadPods : Nat
  Events : List K8sEvent
deriving DecidableEq

/-- One iteration of `AnalyzeK8s`' loop:
`pod := i.(map[string]any); status := pod["status"].(map[string]any);
phase := status["phase"].(string)`; only for phase `"Failed"` is
`status["startTime"].(string)` read (so a healthy pod may lack `startTime`). -/
def readPod (i : Json) : Option (Option K8sEvent) := do
  let status ← i.field "status"
  let phase ← (status.field "phase").bind Json.asStr
  if phase = "Failed" then do
    let t ← (status.field "startTime").bind Json.asStr
    pure (some { Time := t, Message := "Pod failed" })
  else
    pure none

/-- Extraction of every pod's contribution; a panic aborts the call. -/
def readPods : List Json → Option (List (Option K8sEvent))
  | [] => some []
  | i :: rest => do
    let e ← readPod i
    let es ← readPods rest
    pure (e :: es)

/-- The accumulating body of `AnalyzeK8s`' loop: each `"Failed"` pod bumps
`bad` and appends its event. -/
def analyzeK8sCore (contribs : List (Option K8sEvent)) : K8sResult :=
  contribs.foldl
    (fun acc c =>
      match c with
      | some e => { BadPods := acc.BadPods + 1, Events := acc.Events ++ [e] }
      | none => acc)
    ⟨0, []⟩

/-- `analysis.AnalyzeK8s(raw string) K8sResult` (`analysis/k8s.go`). -/
def AnalyzeK8s (raw : Option Json) : Option K8sResult := do
  let parsed := rawParse raw
  let items ← (parsed.field "items").bind Json.asArr
  let contribs ← readPods items
  pure (analyzeK8sCore contribs)

/-! ## Package `correlation` -/

/-- `correlation.Event`. -/
structure Event where
  Time : String
  Source : String
  Message : String
deriving DecidableEq

/-- `correlation.Impact`.  `ErrorRate` is a Go `float64`, modelled as ℚ;
`BadPods` is a Go `int`, modelled as ℤ. -/
structure Impact where
  SLOAffected : Bool
  ErrorRate : ℚ
  BadPods : ℤ
deriving DecidableEq

/-- `correlation.Incident`. -/
structure Incident where
  ID : String
  Service : String
  RootCause : String
  Severity : String
  Timeline : List Event
  Impact : Impact
deriving DecidableEq

/-- `correlation.BuildTimeline` (`correlation/timeline.go`): three append
loops over the log, trace and cluster events in that order, tagging sources
`"logs"`, `"traces"` and `"k8s"`; the `metrics` argument is never read. -/
def BuildTimeline (logs : LogResult) (metrics : MetricResult)
    (traces : TraceResult) (k8s : K8sResult) : List Event :=
  let _ := metrics
  let timeline : List Event := []
  let timeline := logs.Events.foldl
    (fun acc e => acc ++ [{ Time := e.Time, Source := "logs", Message := e.Message }]) timeline
  let timeline := traces.Events.foldl
    (fun acc e => acc ++ [{ Time := e.Time, Source := "traces", Message := e.Message }]) timeline
  let timeline := k8s.Events.foldl
    (fun acc e => acc ++ [{ Time := e.Time, Source := "k8s", Message := e.Message }]) timeline
  timeline

/-- `correlation.CalculateImpact` (`correlation/timeline.go`). -/
def CalculateImpact (errorRate : ℚ) (badPods : ℤ) : Impact :=
  { SLOAffected := decide (1 < errorRate), ErrorRate := errorRate, BadPods := badPods }

/-- `correlation.calculateSeverity` (`correlation/incident.go`). -/
def calculateSeverity (impact : Impact) : String :=
  if 3 < impact.BadPods ∨ 5 < impact.ErrorRate then "critical"
  else if 1 < impact.ErrorRate then "warning"
  else "healthy"

/-- `correlation.BuildIncident(service string) Incident`
(`correlation/incident.go`).  The source calls the four analyzers directly,
passing the service name; each analyzer consumes the raw payload fetched from
its backend by the corresponding `services` client (`QueryLogs`,
`QueryMetrics`, `GetTraces`, `GetCluster`), which returns the response body
string — or the transport error's message string on failure.  The embedding
passes those fetched payloads explicitly; `none` stands for a payload that is
not valid JSON (in particular any transport-error message).  The calls are
sequential, and a panic in any analyzer propagates and aborts the whole call:
`none` here. -/
def BuildIncident (service : String) (rawLogs rawMetrics rawTraces rawK8s : Option Json) :
    Option Incident := do
  let logs ← AnalyzeLogs service rawLogs
  let metrics ← AnalyzeMetrics rawMetrics
  let traces ← AnalyzeTraces rawTraces
  let k8s ← AnalyzeK8s rawK8s
  let impact : Impact :=
    { SLOAffected := decide (1 < metrics.ErrorRate)
      ErrorRate := metrics.ErrorRate
      BadPods := (k8s.BadPods : ℤ) }
  pure
    { ID := service ++ "-incident"
      Service := service
      RootCause := logs.RootCause
      Severity := calculateSeverity impact
      Timeline := BuildTimeline logs metrics traces k8s
      Impact := impact }

/-- Lexicographic comparison of character lists (standard string order, the
order in which RFC3339 timestamps and fixed-width unix-nano strings are also
chronologically ordered). -/
def leChars : List Char → List Char → Bool
  | [], _ => true
  | _ :: _, [] => false
  | a :: as, b :: bs =>
    if a.val < b.val then true
    else if b.val < a.val then false
    else leChars as bs

/-- Non-strict lexicographic order on timestamp strings. -/
def leTime (a b : String) : Bool := leChars a.data b.data

/-- The spec's `isSorted(timeline, by=time)`: non-decreasing event times. -/
def isSortedByTime : List Event → Bool
  | [] => true
  | [_] => true
  | a :: b :: rest => leTime a.Time b.Time && isSortedByTime (b :: rest)

/-! ## Well-formed payload families

Encodings of the JSON shapes each backend actually returns, used to state
properties quantified over "every valid payload". -/

/-- A Loki-style log payload:
`{"data": {"result": [{"values": [[ts, line], ...]}, ...]}}`. -/
def logsPayload (streams : List (List (String × String))) : Json :=
  .obj [("data", .obj [("result", .arr (streams.map fun vs =>
    .obj [("values", .arr (vs.map fun p => .arr [.str p.1, .str p.2]))]))])]

/-- A Prometheus-style instant-query payload with an empty result vector. -/
def metricsEmptyPayload : Json :=
  .obj [("data", .obj [("result", .arr [])])]

/-- A Tempo-style search payload:
`{"traces": [{"status": s, "startTimeUnixNano": t}, ...]}`. -/
def tracesPayload (entries : List (String × String)) : Json :=
  .obj [("traces", .arr (entries.map fun e =>
    .obj [("status", .str e.1), ("startTimeUnixNano", .str e.2)]))]

/-- A Kubernetes pod-list payload:
`{"items": [{"status": {"phase": p, "startTime": t}}, ...]}`. -/
def k8sPayload (pods : List (String × String)) : Json :=
  .obj [("items", .arr (pods.map fun p =>
    .obj [("status", .obj [("phase", .str p.1), ("startTime", .str p.2)])]))]

/-! ## Helper lemmas -/

theorem containsError_empty : containsError "" = false := by decide

theorem ne_empty_of_containsError {m : String} (h : containsError m = true) : m ≠ "" := by
  intro he
  rw [he, containsError_empty] at h
  exact Bool.false_ne_true h

theorem foldl_append_map {α β : Type} (f : α → β) (l : List α) :
    ∀ init : List β, l.foldl (fun acc e => acc ++ [f e]) init = init ++ l.map f := by
  induction l with
  | nil => intro init; simp
  | cons x xs ih => intro init; simp [List.foldl_cons, ih]

theorem buildTimeline_eq (logs : LogResult) (metrics : MetricResult)
    (traces : TraceResult) (k8s : K8sResult) :
    BuildTimeline logs metrics traces k8s =
      logs.Events.map (fun e => { Time := e.Time, Source := "logs", Message := e.Message })
      ++ traces.Events.map (fun e => { Time := e.Time, Source := "traces", Message := e.Message })
      ++ k8s.Events.map (fun e => { Time := e.Time, Source := "k8s", Message := e.Message }) := by
  simp only [BuildTimeline]
  rw [foldl_append_map, foldl_append_map, foldl_append_map]
  simp

theorem logStep_events (acc : LogResult) (p : String × String) :
    (logStep acc p).Events = acc.Events ++ [⟨p.1, p.2⟩] := by
  unfold logStep
  by_cases h : containsError p.2 <;> simp [h]

theorem logStep_errorCount (acc : LogResult) (p : String × String) :
    (logStep acc p).ErrorCount = acc.ErrorCount + (if containsError p.2 then 1 else 0) := by
  unfold logStep
  by_cases h : containsError p.2 <;> simp [h]

theorem logStep_rootCause (acc : LogResult) (p : String × String) :
    (logStep acc p).RootCause =
      if containsError p.2 ∧ acc.RootCause = "" then p.2 else acc.RootCause := by
  unfold logStep
  by_cases h : containsError p.2 <;> by_cases h2 : acc.RootCause = "" <;> simp [h, h2]

theorem foldl_logStep_events (lines : List (String × String)) :
    ∀ acc : LogResult, (lines.foldl logStep acc).Events =
      acc.Events ++ lines.map fun p => (⟨p.1, p.2⟩ : LogEvent) := by
  induction lines with
  | nil => intro acc; simp
  | cons p rest ih =>
    intro acc
    rw [List.foldl_cons, ih, logStep_events]
    simp

theorem foldl_logStep_errorCount (lines : List (String × String)) :
    ∀ acc : LogResult, (lines.foldl logStep acc).ErrorCount =
      acc.ErrorCount + lines.countP fun p => containsError p.2 := by
  induction lines with
  | nil => intro acc; simp
  | cons p rest ih =>
    intro acc
    rw [List.foldl_cons, ih, logStep_errorCount, List.countP_cons]
    by_cases h : containsError p.2
    · simp [h]
      omega
    · simp [h]

theorem foldl_logStep_rootCause_stable (lines : List (String × String)) :
    ∀ acc : LogResult, acc.RootCause ≠ "" →
      (lines.foldl logStep acc).RootCause = acc.RootCause := by
  induction lines with
  | nil => intro acc _; rfl
  | cons p rest ih =>
    intro acc h
    have hstep : (logStep acc p).RootCause = acc.RootCause := by
      rw [logStep_rootCause]
      simp [h]
    rw [List.foldl_cons, ih _ (by rw [hstep]; exact h), hstep]

theorem foldl_logStep_rootCause_empty (lines : List (String × String)) :
    ∀ acc : LogResult, acc.RootCause = "" →
      (lines.foldl logStep acc).RootCause =
        (((lines.find? fun p => containsError p.2).map Prod.snd).getD "") := by
  induction lines with
  | nil => intro acc h; simpa using h
  | cons p rest ih =>
    intro acc h
    rw [List.foldl_cons]
    by_cases hc : containsError p.2
    · have hroot : (logStep acc p).RootCause = p.2 := by
        rw [logStep_rootCause]
        simp [hc, h]
      have hfind : List.find? (fun q => containsError q.2) (p :: rest) = some p :=
        List.find?_cons_of_pos rest (by simpa using hc)
      rw [foldl_logStep_rootCause_stable rest _ (by rw [hroot]; exact ne_empty_of_containsError hc),
        hroot, hfind]
      rfl
    · have hstep : (logStep acc p).RootCause = "" := by
        rw [logStep_rootCause]
        simp [hc, h]
      have hfind : List.find? (fun q => containsError q.2) (p :: rest) =
          List.find? (fun q => containsError q.2) rest :=
        List.find?_cons_of_neg rest (by simpa using hc)
      rw [ih _ hstep, hfind]

theorem analyzeLogsCore_spec (lines : List (String × String)) :
    (analyzeLogsCore lines).RootCause =
        (((lines.find? fun p => containsError p.2).map Prod.snd).getD "")
    ∧ (analyzeLogsCore lines).ErrorCount = (lines.countP fun p => containsError p.2)
    ∧ (analyzeLogsCore lines).Events = (lines.map fun p => (⟨p.1, p.2⟩ : LogEvent)) := by
  unfold analyzeLogsCore
  refine ⟨foldl_logStep_rootCause_empty lines _ rfl, ?_, ?_⟩
  · rw [foldl_logStep_errorCount]
    simp
  · rw [foldl_logStep_events]
    simp

theorem readLogLines_encode (vs : List (String × String)) :
    readLogLines (vs.map fun p => Json.arr [.str p.1, .str p.2]) = some vs := by
  induction vs with
  | nil => rfl
  | cons p rest ih =>
    simp only [List.map_cons, readLogLines, readLogLine, Json.asArr, Json.asStr,
      List.get?, Option.bind, ih]
    rfl

theorem readStreams_encode (streams : List (List (String × String))) :
    readStreams (streams.map fun vs =>
      Json.obj [("values", .arr (vs.map fun p => .arr [.str p.1, .str p.2]))]) =
      some streams.flatten := by
  induction streams with
  | nil => rfl
  | cons vs rest ih =>
    rw [List.map_cons]
    simp only [readStreams]
    rw [show ((Json.obj [("values", Json.arr (vs.map fun p =>
        Json.arr [Json.str p.1, Json.str p.2]))]).field "values").bind Json.asArr =
      some (vs.map fun p => Json.arr [Json.str p.1, Json.str p.2]) from rfl]
    simp only [Option.bind_eq_bind', Option.some_bind', readLogLines_encode, ih,
      List.flatten_cons]
    rfl

theorem analyzeLogs_encode (service : String) (streams : List (List (String × String))) :
    AnalyzeLogs service (some (logsPayload streams)) =
      some (analyzeLogsCore streams.flatten) := by
  simp only [AnalyzeLogs, logsPayload, rawParse]
  rw [show (((Json.obj [("data", Json.obj [("result", Json.arr (streams.map fun vs =>
      Json.obj [("values", Json.arr (vs.map fun p =>
        Json.arr [Json.str p.1, Json.str p.2]))]))])]).field "data").bind (fun d =>
          d.field "result")).bind Json.asArr =
    some (streams.map fun vs => Json.obj [("values", Json.arr (vs.map fun p =>
      Json.arr [Json.str p.1, Json.str p.2]))]) from rfl]
  simp only [Option.bind_eq_bind', Option.some_bind', readStreams_encode]
  rfl

theorem analyzeLogs_some_inv {service : String} {raw : Option Json} {logs : LogResult}
    (h : AnalyzeLogs service raw = some logs) :
    ∃ lines, logs = analyzeLogsCore lines := by
  simp only [AnalyzeLogs] at h
  cases hs : (((rawParse raw).field "data").bind fun d => d.field "result").bind Json.asArr with
  | none => rw [hs] at h; simp at h
  | some streams =>
    rw [hs] at h
    simp only [Option.bind_eq_bind', Option.some_bind'] at h
    cases hl : readStreams streams with
    | none => rw [hl] at h; simp at h
    | some lines =>
      rw [hl] at h
      simp at h
      exact ⟨lines, h.symm⟩

theorem analyzeLogsCore_rootCause_empty_iff (lines : List (String × String)) :
    ((analyzeLogsCore lines).RootCause = "") ↔ ((analyzeLogsCore lines).ErrorCount = 0) := by
  obtain ⟨hr, hc, -⟩ := analyzeLogsCore_spec lines
  rw [hr, hc, List.countP_eq_zero]
  cases hf : lines.find? fun p => containsError p.2 with
  | none =>
    simp only [Option.map_none', Option.getD_none, true_iff]
    intro p hp
    have := List.find?_eq_none.mp hf p hp
    simpa using this
  | some p =>
    have hmem := List.find?_some hf
    have hpmem := List.mem_of_find?_eq_some hf
    simp only [Option.map_some', Option.getD_some]
    constructor
    · intro hemp
      exact absurd hemp (ne_empty_of_containsError (by simpa using hmem))
    · intro hall
      exact absurd (by simpa using hmem) (by simpa using hall p hpmem)

theorem analyzeMetrics_errorRate {raw : Option Json} {r : MetricResult}
    (h : AnalyzeMetrics raw = some r) : r.ErrorRate = 0 := by
  simp only [AnalyzeMetrics] at h
  cases hres : (((rawParse raw).field "data").bind fun d => d.field "result").bind Json.asArr with
  | none => rw [hres] at h; simp at h
  | some results =>
    rw [hres] at h
    simp only [Option.bind_eq_bind', Option.some_bind'] at h
    cases results with
    | nil =>
      simp at h
      rw [← h]
    | cons first rest =>
      simp only [Option.bind_eq_bind', Option.bind_eq_some'] at h
      obtain ⟨val, -, h⟩ := h
      simp at h
      rw [← h]

theorem buildIncident_some_inv {service : String} {rl rm rt rk : Option Json} {inc : Incident}
    (h : BuildIncident service rl rm rt rk = some inc) :
    ∃ logs metrics traces k8s,
      AnalyzeLogs service rl = some logs ∧ AnalyzeMetrics rm = some metrics ∧
      AnalyzeTraces rt = some traces ∧ AnalyzeK8s rk = some k8s ∧
      inc = { ID := service ++ "-incident", Service := service, RootCause := logs.RootCause
              Severity := calculateSeverity
                ⟨decide (1 < metrics.ErrorRate), metrics.ErrorRate, (k8s.BadPods : ℤ)⟩
              Timeline := BuildTimeline logs metrics traces k8s
              Impact := ⟨decide (1 < metrics.ErrorRate), metrics.ErrorRate, (k8s.BadPods : ℤ)⟩ } := by
  simp only [BuildIncident] at h
  cases h1 : AnalyzeLogs service rl with
  | none => rw [h1] at h; simp at h
  | some logs =>
  rw [h1] at h
  simp only [Option.bind_eq_bind', Option.some_bind'] at h
  cases h2 : AnalyzeMetrics rm with
  | none => rw [h2] at h; simp at h
  | some metrics =>
  rw [h2] at h
  simp only [Option.bind_eq_bind', Option.some_bind'] at h
  cases h3 : AnalyzeTraces rt with
  | none => rw [h3] at h; simp at h
  | some traces =>
  rw [h3] at h
  simp only [Option.bind_eq_bind', Option.some_bind'] at h
  cases h4 : AnalyzeK8s rk with
  | none => rw [h4] at h; simp at h
  | some k8s =>
  rw [h4] at h
  simp at h
  exact ⟨logs, metrics, traces, k8s, rfl, rfl, rfl, rfl, h.symm⟩

theorem buildIncident_isSome (service : String) (rl rm rt rk : Option Json) :
    (BuildIncident service rl rm rt rk).isSome =
      ((AnalyzeLogs service rl).isSome && (AnalyzeMetrics rm).isSome &&
       (AnalyzeTraces rt).isSome && (AnalyzeK8s rk).isSome) := by
  simp only [BuildIncident]
  cases AnalyzeLogs service rl <;> cases AnalyzeMetrics rm <;>
    cases AnalyzeTraces rt <;> cases AnalyzeK8s rk <;> simp

theorem eq_none_of_isSome_eq_false {α : Type} {o : Option α} (h : o.isSome = false) :
    o = none := by
  cases o
  · rfl
  · simp at h

theorem isSortedByTime_of_pairwise {l : List Event}
    (h : l.Pairwise fun a b => leTime a.Time b.Time = true) : isSortedByTime l = true := by
  induction l with
  | nil => rfl
  | cons a rest ih =>
    cases rest with
    | nil => rfl
    | cons b rest2 =>
      rw [List.pairwise_cons] at h
      obtain ⟨ha, hrest⟩ := h
      show (leTime a.Time b.Time && isSortedByTime (b :: rest2)) = true
      rw [ha b (by simp), ih hrest]
      rfl

/-- C5 (confirmed): for every Impact value, `calculateSeverity` returns
"critical" exactly when `failingPodCount > 3` or `errorRatePercent > 5`,
"warning" exactly when not critical and `errorRatePercent > 1`, and "healthy"
otherwise; in particular an error rate of exactly 1 with at most 3 failing
pods is healthy (strict comparison), 1.01 is warning, and 4 failing pods with
a low error rate is critical. -/
theorem severity_thresholds :
    (∀ i : Impact,
      (calculateSeverity i = "critical" ↔ (3 < i.BadPods ∨ 5 < i.ErrorRate)) ∧
      (calculateSeverity i = "warning" ↔ ¬(3 < i.BadPods ∨ 5 < i.ErrorRate) ∧ 1 < i.ErrorRate) ∧
      (calculateSeverity i = "healthy" ↔
        ¬(3 < i.BadPods ∨ 5 < i.ErrorRate) ∧ ¬(1 < i.ErrorRate))) ∧
    calculateSeverity ⟨false, 1, 3⟩ = "healthy" ∧
    calculateSeverity ⟨true, 101/100, 0⟩ = "warning" ∧
    calculateSeverity ⟨false, 5, 4⟩ = "critical" := by
  refine ⟨?_, by norm_num [calculateSeverity], by norm_num [calculateSeverity],
    by norm_num [calculateSeverity]⟩
  intro i
  unfold calculateSeverity
  by_cases h1 : 3 < i.BadPods ∨ 5 < i.ErrorRate
  · rw [if_pos h1]
    exact ⟨⟨fun _ => h1, fun _ => rfl⟩,
      ⟨fun hx => absurd hx (by decide), fun hx => absurd h1 hx.1⟩,
      ⟨fun hx => absurd hx (by decide), fun hx => absurd h1 hx.1⟩⟩
  · rw [if_neg h1]
    by_cases h2 : 1 < i.ErrorRate
    · rw [if_pos h2]
      exact ⟨⟨fun hx => absurd hx (by decide), fun hx => absurd hx h1⟩,
        ⟨fun _ => ⟨h1, h2⟩, fun _ => rfl⟩,
        ⟨fun hx => absurd hx (by decide), fun hx => absurd h2 hx.2⟩⟩
    · rw [if_neg h2]
      exact ⟨⟨fun hx => absurd hx (by decide), fun hx => absurd hx h1⟩,
        ⟨fun hx => absurd hx (by decide), fun hx => absurd hx.2 h2⟩,
        ⟨fun _ => ⟨h1, h2⟩, fun _ => rfl⟩⟩

/-- C6 (confirmed): for every well-formed log payload, `AnalyzeLogs` returns
the LogResult whose `rootCauseCandidate` is the message of the first line (in
payload iteration order) whose text contains "error" case-insensitively
(empty when no line matches, via `getD ""`), whose `errorCount` is the number
of matching lines, and whose events list all lines in order; in particular on
the two lines "2024-01-01T00:00:01Z info startup" and
"2024-01-01T00:00:02Z error db timeout" the root cause is the second line's
text and the error count is 1. -/
theorem analyzeLogs_root_cause_selection :
    (∀ (service : String) (streams : List (List (String × String))),
      AnalyzeLogs service (some (logsPayload streams)) = some
        { RootCause := ((streams.flatten.find? fun p => containsError p.2).map Prod.snd).getD ""
          ErrorCount := streams.flatten.countP fun p => containsError p.2
          Events := streams.flatten.map fun p => ⟨p.1, p.2⟩ }) ∧
    (AnalyzeLogs "svc" (some (logsPayload [[("1", "2024-01-01T00:00:01Z info startup"),
        ("2", "2024-01-01T00:00:02Z error db timeout")]]))).map
      (fun r => (r.RootCause, r.ErrorCount)) =
      some ("2024-01-01T00:00:02Z error db timeout", 1) := by
  constructor
  · intro service streams
    rw [analyzeLogs_encode]
    congr 1
    obtain ⟨h1, h2, h3⟩ := analyzeLogsCore_spec streams.flatten
    rw [← h1, ← h2, ← h3]
  · rfl

/-- C10 (confirmed): `BuildTimeline` returns exactly the concatenation of the
log events, then the trace events, then the cluster events, each sub-list in
input order; its length is the sum of the three input lengths; the metrics
argument never contributes (the output is the same for every MetricResult);
and every event is tagged "logs", "traces" or "k8s" (never "cluster" or
"metrics"). -/
theorem buildTimeline_concatenation (logs : LogResult) (metrics : MetricResult)
    (traces : TraceResult) (k8s : K8sResult) :
    BuildTimeline logs metrics traces k8s =
      (logs.Events.map fun e => { Time := e.Time, Source := "logs", Message := e.Message })
      ++ (traces.Events.map fun e => { Time := e.Time, Source := "traces", Message := e.Message })
      ++ (k8s.Events.map fun e => { Time := e.Time, Source := "k8s", Message := e.Message }) ∧
    (BuildTimeline logs metrics traces k8s).length =
      logs.Events.length + traces.Events.length + k8s.Events.length ∧
    (∀ metrics2 : MetricResult,
      BuildTimeline logs metrics2 traces k8s = BuildTimeline logs metrics traces k8s) ∧
    ∀ e ∈ BuildTimeline logs metrics traces k8s,
      e.Source = "logs" ∨ e.Source = "traces" ∨ e.Source = "k8s" := by
  refine ⟨buildTimeline_eq logs metrics traces k8s, ?_, ?_, ?_⟩
  · rw [buildTimeline_eq]
    simp
    omega
  · intro m2
    rw [buildTimeline_eq, buildTimeline_eq]
  · intro e he
    rw [buildTimeline_eq] at he
    simp only [List.mem_append, List.mem_map] at he
    rcases he with (⟨a, -, rfl⟩ | ⟨a, -, rfl⟩) | ⟨a, -, rfl⟩
    · exact Or.inl rfl
    · exact Or.inr (Or.inl rfl)
    · exact Or.inr (Or.inr rfl)

/-- C3 counterexample: a set of valid payloads from all four sources (one log
line at time "9", one failed trace at time "1") on which the assembled
Incident timeline is NOT sorted non-decreasing by time — `BuildTimeline`
performs no sorting. -/
theorem timeline_not_sorted_cex :
    (BuildIncident "svc" (some (logsPayload [[("9", "error late")]]))
      (some metricsEmptyPayload) (some (tracesPayload [("fail", "1")]))
      (some (k8sPayload []))).map (fun i => isSortedByTime i.Timeline) = some false := by
  rfl

/-- C3 (corrected): the timeline is the fixed-order concatenation of the log,
trace and cluster event groups, so it is sorted non-decreasing by time only
under alignment hypotheses: each group internally sorted and every log event
time at most every trace event time, etc.  (Equal-timestamp events across
groups do appear in the priority order logs, traces, cluster, because the
groups are concatenated in that order; metrics contribute nothing.) -/
theorem timeline_sorted_under_aligned_groups (logs : LogResult) (metrics : MetricResult)
    (traces : TraceResult) (k8s : K8sResult)
    (hl : logs.Events.Pairwise fun a b => leTime a.Time b.Time = true)
    (ht : traces.Events.Pairwise fun a b => leTime a.Time b.Time = true)
    (hk : k8s.Events.Pairwise fun a b => leTime a.Time b.Time = true)
    (hlt : ∀ a ∈ logs.Events, ∀ b ∈ traces.Events, leTime a.Time b.Time = true)
    (hlk : ∀ a ∈ logs.Events, ∀ b ∈ k8s.Events, leTime a.Time b.Time = true)
    (htk : ∀ a ∈ traces.Events, ∀ b ∈ k8s.Events, leTime a.Time b.Time = true) :
    isSortedByTime (BuildTimeline logs metrics traces k8s) = true := by
  apply isSortedByTime_of_pairwise
  rw [buildTimeline_eq]
  apply List.pairwise_append.mpr
  refine ⟨List.pairwise_append.mpr ⟨List.pairwise_map.mpr hl, List.pairwise_map.mpr ht, ?_⟩,
    List.pairwise_map.mpr hk, ?_⟩
  · intro a ha b hb
    simp only [List.mem_map] at ha hb
    obtain ⟨a0, ha0, rfl⟩ := ha
    obtain ⟨b0, hb0, rfl⟩ := hb
    exact hlt a0 ha0 b0 hb0
  · intro a ha b hb
    simp only [List.mem_map, List.mem_append] at ha hb
    obtain ⟨b0, hb0, rfl⟩ := hb
    rcases ha with ⟨a0, ha0, rfl⟩ | ⟨a0, ha0, rfl⟩
    · exact hlk a0 ha0 b0 hb0
    · exact htk a0 ha0 b0 hb0

/-- C3 witness: the amended theorem applied at concrete sorted, aligned
inputs. -/
theorem timeline_sorted_under_aligned_groups_witness :
    isSortedByTime (BuildTimeline ⟨"", 0, [⟨"1", "boot"⟩]⟩ ⟨0, 0⟩
      ⟨1, [⟨"2", "Trace failure"⟩]⟩ ⟨0, []⟩) = true :=
  timeline_sorted_under_aligned_groups _ _ _ _ (by decide) (by decide) (by decide)
    (by decide) (by decide) (by decide)

/-- C1 counterexample: a transport failure on the logs source (its client
returns the error's message string, which is not valid JSON, modelled `none`)
while metrics, traces and cluster all return valid payloads; `BuildIncident`
produces NO Incident at all (the analyzer's type assertion panics), instead
of a partial-flagged Incident — and the `Incident` type has no
partial-failure field to set. -/
theorem one_failed_source_aborts_cex :
    BuildIncident "payments" none (some metricsEmptyPayload)
      (some (tracesPayload [("ok", "100")])) (some (k8sPayload [("Running", "t1")])) = none ∧
    (AnalyzeMetrics (some metricsEmptyPayload)).isSome = true ∧
    (AnalyzeTraces (some (tracesPayload [("ok", "100")]))).isSome = true ∧
    (AnalyzeK8s (some (k8sPayload [("Running", "t1")]))).isSome = true :=
  ⟨rfl, rfl, rfl, rfl⟩

/-- C1 (corrected): `BuildIncident` has no partial-failure tolerance: if any
one source's payload is unavailable or not valid JSON, the whole assembly
aborts (panics) regardless of the other three sources, returning no Incident;
no degradation flag exists. -/
theorem buildIncident_none_of_any_invalid_payload (service : String)
    (rl rm rt rk : Option Json) :
    BuildIncident service none rm rt rk = none ∧
    BuildIncident service rl none rt rk = none ∧
    BuildIncident service rl rm none rk = none ∧
    BuildIncident service rl rm rt none = none := by
  refine ⟨?_, ?_, ?_, ?_⟩ <;>
  · apply eq_none_of_isSome_eq_false
    rw [buildIncident_isSome]
    simp [show (AnalyzeLogs service none).isSome = false from rfl,
      show (AnalyzeMetrics none).isSome = false from rfl,
      show (AnalyzeTraces none).isSome = false from rfl,
      show (AnalyzeK8s none).isSome = false from rfl]

/-- C2 counterexample: the logs payload is malformed (an empty JSON object)
while the other three sources succeed; `BuildIncident` still aborts (panics,
modelled `none`), refuting "at least one source succeeds implies no
error". -/
theorem one_source_success_still_errors_cex :
    BuildIncident "checkout" (some (Json.obj [])) (some metricsEmptyPayload)
      (some (tracesPayload [])) (some (k8sPayload [])) = none ∧
    (AnalyzeMetrics (some metricsEmptyPayload)).isSome = true ∧
    (AnalyzeTraces (some (tracesPayload []))).isSome = true ∧
    (AnalyzeK8s (some (k8sPayload []))).isSome = true :=
  ⟨rfl, rfl, rfl, rfl⟩

/-- C2 (corrected): `BuildIncident` returns an Incident exactly when all four
payloads parse; any single source failure aborts the whole call by panic, so
there is no distinguished explicit-error path for the all-four-fail case —
that case also surfaces as the same panic. -/
theorem buildIncident_succeeds_iff_all_sources_parse (service : String)
    (rl rm rt rk : Option Json) :
    (BuildIncident service rl rm rt rk).isSome =
      ((AnalyzeLogs service rl).isSome && (AnalyzeMetrics rm).isSome &&
       (AnalyzeTraces rt).isSome && (AnalyzeK8s rk).isSome) :=
  buildIncident_isSome service rl rm rt rk

/-- C4 counterexample: on a payload whose JSON shape is wrong (an empty
object, missing every expected key) and on a payload that is not valid JSON,
each of the four normalizers crashes on a failed type assertion (modelled
`none`) instead of returning a ParseError value — no ParseError type exists
in the code. -/
theorem normalizers_crash_on_malformed_cex :
    AnalyzeLogs "svc" (some (Json.obj [])) = none ∧
    AnalyzeMetrics (some (Json.obj [])) = none ∧
    AnalyzeTraces (some (Json.obj [])) = none ∧
    AnalyzeK8s (some (Json.obj [])) = none ∧
    AnalyzeLogs "svc" none = none ∧
    AnalyzeMetrics none = none ∧
    AnalyzeTraces none = none ∧
    AnalyzeK8s none = none :=
  ⟨rfl, rfl, rfl, rfl, rfl, rfl, rfl, rfl⟩

/-- C4 (corrected): whenever the payload's top level lacks the key the
normalizer dereferences ("data" for logs and metrics, "traces" for traces,
"items" for cluster state) — which includes every invalid-JSON payload —
the normalizer panics at a type assertion and produces no result; none of
the normalizers ever returns a ParseError value. -/
theorem normalizers_crash_when_expected_key_missing (service : String) (p : Option Json) :
    ((rawParse p).field "data" = none → AnalyzeLogs service p = none) ∧
    ((rawParse p).field "data" = none → AnalyzeMetrics p = none) ∧
    ((rawParse p).field "traces" = none → AnalyzeTraces p = none) ∧
    ((rawParse p).field "items" = none → AnalyzeK8s p = none) := by
  refine ⟨fun h => ?_, fun h => ?_, fun h => ?_, fun h => ?_⟩
  · simp [AnalyzeLogs, h]
  · simp [AnalyzeMetrics, h]
  · simp [AnalyzeTraces, h]
  · simp [AnalyzeK8s, h]

/-- C4 witness: the amended theorem applied at a concrete payload lacking all
the expected keys. -/
theorem normalizers_crash_witness :
    AnalyzeLogs "api" (some (Json.obj [("pods", Json.null)])) = none ∧
    AnalyzeMetrics (some (Json.obj [("pods", Json.null)])) = none ∧
    AnalyzeTraces (some (Json.obj [("pods", Json.null)])) = none ∧
    AnalyzeK8s (some (Json.obj [("pods", Json.null)])) = none :=
  have h := normalizers_crash_when_expected_key_missing "api" (some (Json.obj [("pods", Json.null)]))
  ⟨h.1 rfl, h.2.1 rfl, h.2.2.1 rfl, h.2.2.2 rfl⟩

/-- C7 (confirmed): `AnalyzeMetrics` hard-codes `ErrorRate = 0` in every
result it returns, regardless of the payload; consequently every assembled
Incident has `Impact.ErrorRate = 0` and `Impact.SLOAffected = false`. -/
theorem errorRate_always_zero :
    (∀ (raw : Option Json) (r : MetricResult), AnalyzeMetrics raw = some r → r.ErrorRate = 0) ∧
    (∀ (service : String) (rl rm rt rk : Option Json) (inc : Incident),
      BuildIncident service rl rm rt rk = some inc →
      inc.Impact.ErrorRate = 0 ∧ inc.Impact.SLOAffected = false) := by
  constructor
  · intro raw r h
    exact analyzeMetrics_errorRate h
  · intro service rl rm rt rk inc h
    obtain ⟨logs, metrics, traces, k8s, -, hm, -, -, hinc⟩ := buildIncident_some_inv h
    have h0 : metrics.ErrorRate = 0 := analyzeMetrics_errorRate hm
    subst hinc
    refine ⟨by simpa using h0, ?_⟩
    show decide (1 < metrics.ErrorRate) = false
    rw [h0]
    decide

/-- C7 witness: the theorem applied at concrete payloads. -/
theorem errorRate_always_zero_witness :
    (MetricResult.mk 0 0).ErrorRate = 0 ∧
    (Incident.mk "svc-incident" "svc" "" "healthy" [] ⟨false, 0, 0⟩).Impact.ErrorRate = 0 ∧
    (Incident.mk "svc-incident" "svc" "" "healthy" [] ⟨false, 0, 0⟩).Impact.SLOAffected = false :=
  have h := errorRate_always_zero
  have h2 := h.2 "svc" (some (logsPayload [])) (some metricsEmptyPayload)
    (some (tracesPayload [])) (some (k8sPayload []))
    (Incident.mk "svc-incident" "svc" "" "healthy" [] ⟨false, 0, 0⟩) rfl
  ⟨h.1 (some metricsEmptyPayload) (MetricResult.mk 0 0) rfl, h2.1, h2.2⟩

/-- C8 counterexample: logs carry no error line but the traces source reports
a failure, so the timeline contains the error-indicating "Trace failure"
event while `rootCause` is still empty — refuting "rootCause is empty only
if no source reported an error-indicating event". -/
theorem rootCause_empty_despite_trace_failure_cex :
    (BuildIncident "orders" (some (logsPayload [[("t0", "starting")]]))
      (some metricsEmptyPayload) (some (tracesPayload [("fail", "5")]))
      (some (k8sPayload []))).map (fun i => (i.RootCause, i.Timeline)) =
    some ("", [⟨"t0", "logs", "starting"⟩, ⟨"5", "traces", "Trace failure"⟩]) := by
  rfl

/-- C8 (corrected): `rootCause` tracks only the logs source: for every
successful assembly, `rootCause` is empty exactly when the log payload
contained no error-marked line; error events from traces or cluster never
populate it. -/
theorem rootCause_empty_iff_no_log_error (service : String) (rl rm rt rk : Option Json)
    (h : (BuildIncident service rl rm rt rk).isSome = true) :
    ((BuildIncident service rl rm rt rk).map Incident.RootCause = some "") ↔
    ((AnalyzeLogs service rl).map LogResult.ErrorCount = some 0) := by
  obtain ⟨inc, hinc⟩ := Option.isSome_iff_exists.mp h
  obtain ⟨logs, metrics, traces, k8s, hlg, -, -, -, hrec⟩ := buildIncident_some_inv hinc
  obtain ⟨lines, hcore⟩ := analyzeLogs_some_inv hlg
  rw [hinc, hlg]
  subst hrec
  subst hcore
  simp only [Option.map_some', Option.some.injEq]
  simpa using analyzeLogsCore_rootCause_empty_iff lines

/-- C8 witness: the amended theorem applied at concrete payloads with no
error line. -/
theorem rootCause_empty_iff_no_log_error_witness :
    ((BuildIncident "web" (some (logsPayload [[("1", "boot")]])) (some metricsEmptyPayload)
      (some (tracesPayload [])) (some (k8sPayload []))).map Incident.RootCause = some "") ↔
    ((AnalyzeLogs "web" (some (logsPayload [[("1", "boot")]]))).map LogResult.ErrorCount =
      some 0) :=
  rootCause_empty_iff_no_log_error "web" (some (logsPayload [[("1", "boot")]]))
    (some metricsEmptyPayload) (some (tracesPayload [])) (some (k8sPayload [])) rfl

/-- C5 witness: the characterization applied at a concrete Impact value. -/
theorem severity_thresholds_witness :
    calculateSeverity ⟨false, 2, 0⟩ = "warning" :=
  (severity_thresholds.1 ⟨false, 2, 0⟩).2.1.mpr ⟨by norm_num, by norm_num⟩

/-- C10 witness: the theorem applied at concrete normalized results. -/
theorem buildTimeline_concatenation_witness :
    BuildTimeline ⟨"", 0, [⟨"1", "a"⟩]⟩ ⟨0, 0⟩ ⟨0, []⟩ ⟨0, []⟩ = [⟨"1", "logs", "a"⟩] ∧
    ((Event.mk "1" "logs" "a").Source = "logs" ∨ (Event.mk "1" "logs" "a").Source = "traces" ∨
      (Event.mk "1" "logs" "a").Source = "k8s") :=
  have h := buildTimeline_concatenation ⟨"", 0, [⟨"1", "a"⟩]⟩ ⟨0, 0⟩ ⟨0, []⟩ ⟨0, []⟩
  ⟨by rw [h.1]; rfl, h.2.2.2 ⟨"1", "logs", "a"⟩ (by decide)⟩
